import Mathlib

/-!
Shallow embedding of the floowandereeze-and-modding-etl-dl extraction
pipeline (the `etl` Python package) in Lean 4, together with theorems
checking the natural-language specification against the code.

Python dictionaries are modelled as association lists in insertion order,
Python `None` as `Option.none`, raised exceptions as `Except.error`, and
the dynamic attribute container `CharacterAssets` as a total function
from the closed asset-type enumeration to optional bundle names.
-/

namespace Etl

/-! ## Generic string machinery (models Python `in`, `str.lower`, `re.search`) -/

/-- Decidable check that `pat` is a prefix of `hay`, over character lists. -/
def listStartsWith : List Char → List Char → Bool
  | [], _ => true
  | _ :: _, [] => false
  | p :: ps, c :: cs => p == c && listStartsWith ps cs

/-- Substring test over character lists: models the Python expression
`pat in hay` for strings. -/
def listContainsSub (hay pat : List Char) : Bool :=
  match hay with
  | [] => listStartsWith pat []
  | _ :: t => listStartsWith pat hay || listContainsSub t pat

/-- Substring test on strings: models the Python expression `pat in hay`. -/
def strContainsSub (hay pat : String) : Bool :=
  listContainsSub hay.data pat.data

/-- ASCII lower-casing of one character; the markers lowered by the code
are all ASCII, for which Python `str.lower` acts exactly like this. -/
def lcChar (c : Char) : Char :=
  if 65 ≤ c.toNat && c.toNat ≤ 90 then Char.ofNat (c.toNat + 32) else c

/-- ASCII lower-casing of a string (Python `str.lower` on ASCII input). -/
def lcString (s : String) : String :=
  ⟨s.data.map lcChar⟩

/-! ## util.py -/

/-- Python slice `lst[a:b]` for nonnegative bounds: drop `a`, keep `b - a`.
The clamping behaviour of `List.drop`/`List.take` matches the Python
slice clamping for out-of-range nonnegative indices. -/
def pySlice (l : List α) (a b : Nat) : List α :=
  (l.drop a).take (b - a)

/-- Embedding of `util.chunkify`.  `divmod(len(lst), n)` raises
`ZeroDivisionError` for `n = 0`; that abnormal exit is modelled as `none`.
For `n > 0` the result is the list comprehension
`[lst[i*k + min(i, m) : (i+1)*k + min(i+1, m)] for i in range(n)]`. -/
def chunkify (l : List α) (n : Nat) : Option (List (List α)) :=
  if n = 0 then none
  else
    let k := l.length / n
    let m := l.length % n
    some ((List.range n).map fun i => pySlice l (i * k + min i m) ((i + 1) * k + min (i + 1) m))

/-- Values of a JSON-like nested dictionary: either a leaf string (a
bundle name or card identifier) or a nested dictionary, kept as an
association list in insertion order like a Python dict. -/
inductive JVal where
  | leaf : String → JVal
  | obj : List (String × JVal) → JVal

/-- Lookup of a key in a dictionary (first matching entry). -/
def lookupJ : List (String × JVal) → String → Option JVal
  | [], _ => none
  | (k, v) :: rest, t => if k = t then some v else lookupJ rest t

/-- Assignment to an existing key of a Python dict: the entry keeps its
position and receives the new value. -/
def setKeyJ : List (String × JVal) → String → JVal → List (String × JVal)
  | [], _, _ => []
  | (k1, v1) :: rest, k, v =>
    if k1 = k then (k1, v) :: rest else (k1, v1) :: setKeyJ rest k v

mutual

/-- Embedding of `util.merge_nested_dicts`, which iterates over the
entries of `dict2` mutating `dict1`: an overlapping key whose values are
both dicts is merged recursively, any other overlapping key is
overwritten with the incoming value, and a fresh key is appended. -/
def mergeND (d1 d2 : List (String × JVal)) : List (String × JVal) :=
  match d2 with
  | [] => d1
  | (k, v) :: rest => mergeND (mergeStep d1 k v) rest
termination_by sizeOf d2

/-- Loop body of `merge_nested_dicts` for one incoming entry `(k, v)`. -/
def mergeStep (d1 : List (String × JVal)) (k : String) (v : JVal) : List (String × JVal) :=
  match lookupJ d1 k, v with
  | some (.obj e1), .obj e2 => setKeyJ d1 k (.obj (mergeND e1 e2))
  | some _, _ => setKeyJ d1 k v
  | none, _ => d1 ++ [(k, v)]
termination_by sizeOf v + 1

end

/-! ## services/character_service.py -/

/-- Embedding of the `CharaSeries` enumeration. -/
inductive CharaSeries where
  | DM | GX | FDS | DSOD | ZEXAL | ARC_V | VRAINS | SEVENS | STANDARD | RUSH
  | NON_PLAYABLE
deriving DecidableEq

/-- Numeric value of each `CharaSeries` member, as in the source. -/
def CharaSeries.value : CharaSeries → Nat
  | .DM => 0
  | .GX => 100
  | .FDS => 200
  | .DSOD => 300
  | .ZEXAL => 400
  | .ARC_V => 500
  | .VRAINS => 600
  | .SEVENS => 700
  | .STANDARD => 800
  | .RUSH => 900
  | .NON_PLAYABLE => 9000

/-- Python `series.name` for each `CharaSeries` member. -/
def CharaSeries.pyName : CharaSeries → String
  | .DM => "DM"
  | .GX => "GX"
  | .FDS => "FDS"
  | .DSOD => "DSOD"
  | .ZEXAL => "ZEXAL"
  | .ARC_V => "ARC_V"
  | .VRAINS => "VRAINS"
  | .SEVENS => "SEVENS"
  | .STANDARD => "STANDARD"
  | .RUSH => "RUSH"
  | .NON_PLAYABLE => "NON_PLAYABLE"

/-- Embedding of `CharaSeries.check_series`: membership of the identity
in `[value, value + 100)` for the numbered series, and `identity ≥ value`
for the `NON_PLAYABLE` member. -/
def CharaSeries.check_series (s : CharaSeries) (charaId : Nat) : Bool :=
  if s.value < 9000 then decide (s.value ≤ charaId ∧ charaId < s.value + 100)
  else decide (charaId ≥ s.value)

/-- Iteration order of `for series in CharaSeries`, which is the member
declaration order of the Python enum. -/
def charaSeriesList : List CharaSeries :=
  [.DM, .GX, .FDS, .DSOD, .ZEXAL, .ARC_V, .VRAINS, .SEVENS, .STANDARD, .RUSH,
   .NON_PLAYABLE]

/-- Series lookup loop of `GameService._parse_character_asset`: the first
enum member whose `check_series` accepts the identity, if any. -/
def classifySeries (charaId : Nat) : Option CharaSeries :=
  charaSeriesList.find? (fun s => s.check_series charaId)

/-- Embedding of the `CharaAssetType` enumeration (declaration order is
load-bearing for `match_asset_by_string`). -/
inductive CharaAssetType where
  | ICON | SELECT
  | DUEL_1 | DUEL_2 | DUEL_3 | DUEL_4 | DUEL_5 | DUEL_6 | DUEL_7 | DUEL_8
  | DUEL_9 | DUEL_10 | DUEL_11 | DUEL_12 | DUEL_13 | DUEL_14 | DUEL_15
  | DUEL_16 | DUEL_17 | DUEL_18 | DUEL_19 | DUEL_20
  | DUEL_31 | DUEL_32 | DUEL_33 | DUEL_34 | DUEL_35 | DUEL_36 | DUEL_37
  | DUEL_38 | DUEL_39 | DUEL_40 | DUEL_41 | DUEL_42
  | WORLD | EVENT
  | DIALOG_0 | DIALOG_1 | DIALOG_2 | DIALOG_3 | DIALOG_4 | DIALOG_5
  | DIALOG_6 | DIALOG_7 | DIALOG_8 | DIALOG_9 | DIALOG_10 | DIALOG_11
  | DIALOG_12 | DIALOG_13 | DIALOG_14 | DIALOG_15 | DIALOG_16 | DIALOG_17
  | DIALOG_18 | DIALOG_19 | DIALOG_20 | DIALOG_21 | DIALOG_22 | DIALOG_23
  | DIALOG_24 | DIALOG_25 | DIALOG_26
  | DIALOG_31 | DIALOG_32 | DIALOG_33 | DIALOG_34 | DIALOG_35 | DIALOG_36
  | DIALOG_37 | DIALOG_38 | DIALOG_39 | DIALOG_40 | DIALOG_41 | DIALOG_42
  | DIALOG_43 | DIALOG_44 | DIALOG_45
  | SELECTED_LEGACY | SELECTED_NEW | HOME_VICTORY | HOME_SPECIAL
  | NAME_BIG | NAME_SMALL | CUTIN | VICTORY | DEFEAT | VERSUS
deriving DecidableEq

/-- Marker string of each `CharaAssetType` member, as in the source. -/
def CharaAssetType.value : CharaAssetType → String
  | .ICON => "Chara001"
  | .SELECT => "Chara002"
  | .DUEL_1 => "Chara003_1"
  | .DUEL_2 => "Chara003_2"
  | .DUEL_3 => "Chara003_3"
  | .DUEL_4 => "Chara003_4"
  | .DUEL_5 => "Chara003_5"
  | .DUEL_6 => "Chara003_6"
  | .DUEL_7 => "Chara003_7"
  | .DUEL_8 => "Chara003_8"
  | .DUEL_9 => "Chara003_9"
  | .DUEL_10 => "Chara003_10"
  | .DUEL_11 => "Chara003_11"
  | .DUEL_12 => "Chara003_12"
  | .DUEL_13 => "Chara003_13"
  | .DUEL_14 => "Chara003_14"
  | .DUEL_15 => "Chara003_15"
  | .DUEL_16 => "Chara003_16"
  | .DUEL_17 => "Chara003_17"
  | .DUEL_18 => "Chara003_18"
  | .DUEL_19 => "Chara003_19"
  | .DUEL_20 => "Chara003_20"
  | .DUEL_31 => "Chara003_31"
  | .DUEL_32 => "Chara003_32"
  | .DUEL_33 => "Chara003_33"
  | .DUEL_34 => "Chara003_34"
  | .DUEL_35 => "Chara003_35"
  | .DUEL_36 => "Chara003_36"
  | .DUEL_37 => "Chara003_37"
  | .DUEL_38 => "Chara003_38"
  | .DUEL_39 => "Chara003_39"
  | .DUEL_40 => "Chara003_40"
  | .DUEL_41 => "Chara003_41"
  | .DUEL_42 => "Chara003_42"
  | .WORLD => "Chara004"
  | .EVENT => "Chara004_1"
  | .DIALOG_0 => "Chara007_0"
  | .DIALOG_1 => "Chara007_1"
  | .DIALOG_2 => "Chara007_2"
  | .DIALOG_3 => "Chara007_3"
  | .DIALOG_4 => "Chara007_4"
  | .DIALOG_5 => "Chara007_5"
  | .DIALOG_6 => "Chara007_6"
  | .DIALOG_7 => "Chara007_7"
  | .DIALOG_8 => "Chara007_8"
  | .DIALOG_9 => "Chara007_9"
  | .DIALOG_10 => "Chara007_10"
  | .DIALOG_11 => "Chara007_11"
  | .DIALOG_12 => "Chara007_12"
  | .DIALOG_13 => "Chara007_13"
  | .DIALOG_14 => "Chara007_14"
  | .DIALOG_15 => "Chara007_15"
  | .DIALOG_16 => "Chara007_16"
  | .DIALOG_17 => "Chara007_17"
  | .DIALOG_18 => "Chara007_18"
  | .DIALOG_19 => "Chara007_19"
  | .DIALOG_20 => "Chara007_20"
  | .DIALOG_21 => "Chara007_21"
  | .DIALOG_22 => "Chara007_22"
  | .DIALOG_23 => "Chara007_23"
  | .DIALOG_24 => "Chara007_24"
  | .DIALOG_25 => "Chara007_25"
  | .DIALOG_26 => "Chara007_26"
  | .DIALOG_31 => "Chara007_31"
  | .DIALOG_32 => "Chara007_32"
  | .DIALOG_33 => "Chara007_33"
  | .DIALOG_34 => "Chara007_34"
  | .DIALOG_35 => "Chara007_35"
  | .DIALOG_36 => "Chara007_36"
  | .DIALOG_37 => "Chara007_37"
  | .DIALOG_38 => "Chara007_38"
  | .DIALOG_39 => "Chara007_39"
  | .DIALOG_40 => "Chara007_40"
  | .DIALOG_41 => "Chara007_41"
  | .DIALOG_42 => "Chara007_42"
  | .DIALOG_43 => "Chara007_43"
  | .DIALOG_44 => "Chara007_44"
  | .DIALOG_45 => "Chara007_45"
  | .SELECTED_LEGACY => "Chara009"
  | .SELECTED_NEW => "Chara010"
  | .HOME_VICTORY => "Chara050_1"
  | .HOME_SPECIAL => "Chara050_2"
  | .NAME_BIG => "CharaName001"
  | .NAME_SMALL => "CharaName002"
  | .CUTIN => "Cutin001"
  | .VICTORY => "Cutin002"
  | .DEFEAT => "Cutin003"
  | .VERSUS => "VS001"

set_option maxHeartbeats 1000000 in
/-- Iteration order of `for asset_type in CharaAssetType`: the member
declaration order of the Python enum. -/
def charaAssetTypes : List CharaAssetType :=
  [.ICON, .SELECT,
   .DUEL_1, .DUEL_2, .DUEL_3, .DUEL_4, .DUEL_5, .DUEL_6, .DUEL_7, .DUEL_8,
   .DUEL_9, .DUEL_10, .DUEL_11, .DUEL_12, .DUEL_13, .DUEL_14, .DUEL_15,
   .DUEL_16, .DUEL_17, .DUEL_18, .DUEL_19, .DUEL_20,
   .DUEL_31, .DUEL_32, .DUEL_33, .DUEL_34, .DUEL_35, .DUEL_36, .DUEL_37,
   .DUEL_38, .DUEL_39, .DUEL_40, .DUEL_41, .DUEL_42,
   .WORLD, .EVENT,
   .DIALOG_0, .DIALOG_1, .DIALOG_2, .DIALOG_3, .DIALOG_4, .DIALOG_5,
   .DIALOG_6, .DIALOG_7, .DIALOG_8, .DIALOG_9, .DIALOG_10, .DIALOG_11,
   .DIALOG_12, .DIALOG_13, .DIALOG_14, .DIALOG_15, .DIALOG_16, .DIALOG_17,
   .DIALOG_18, .DIALOG_19, .DIALOG_20, .DIALOG_21, .DIALOG_22, .DIALOG_23,
   .DIALOG_24, .DIALOG_25, .DIALOG_26,
   .DIALOG_31, .DIALOG_32, .DIALOG_33, .DIALOG_34, .DIALOG_35, .DIALOG_36,
   .DIALOG_37, .DIALOG_38, .DIALOG_39, .DIALOG_40, .DIALOG_41, .DIALOG_42,
   .DIALOG_43, .DIALOG_44, .DIALOG_45,
   .SELECTED_LEGACY, .SELECTED_NEW, .HOME_VICTORY, .HOME_SPECIAL,
   .NAME_BIG, .NAME_SMALL, .CUTIN, .VICTORY, .DEFEAT, .VERSUS]

/-- Embedding of `match_asset_by_string`: the first enum member whose
lower-cased marker is a substring of the asset path, if any. -/
def match_asset_by_string (assetString : String) : Option CharaAssetType :=
  charaAssetTypes.find? (fun t => strContainsSub assetString (lcString t.value))

/-- Search for the regular expression `pat` + `\d{3}\.png` starting at
the head of the character list. -/
def charaPatAt (pat : List Char) (s : List Char) : Bool :=
  listStartsWith pat s &&
    (match s.drop pat.length with
     | d1 :: d2 :: d3 :: r2 =>
       d1.isDigit && d2.isDigit && d3.isDigit && listStartsWith ".png".data r2
     | _ => false)

/-- Scan all start positions for `pat` + `\d{3}\.png`, as `re.search`
does for the character-asset filename patterns. -/
def searchCharaPat (pat : List Char) : List Char → Bool
  | [] => charaPatAt pat []
  | c :: cs => charaPatAt pat (c :: cs) || searchCharaPat pat cs

/-- Embedding of `is_character_asset`: some pattern among `chara`,
`charaname`, `cutin`, `vs`, followed by three digits and `.png`, occurs
in the name. -/
def is_character_asset (name : String) : Bool :=
  ["chara", "charaname", "cutin", "vs"].any
    (fun pat => searchCharaPat pat.data name.data)

/-- Numeric value of a decimal digit character. -/
def digitVal (c : Char) : Nat := c.toNat - 48

/-- Match of the regular expression `sn(\d{4})` at the head of the
character list, yielding the integer value of the captured group. -/
def konamiAt : List Char → Option Nat
  | 's' :: 'n' :: d1 :: d2 :: d3 :: d4 :: _ =>
    if d1.isDigit && d2.isDigit && d3.isDigit && d4.isDigit then
      some (digitVal d1 * 1000 + digitVal d2 * 100 + digitVal d3 * 10 + digitVal d4)
    else none
  | _ => none

/-- Left-to-right scan of `re.search` for `sn(\d{4})`. -/
def searchKonami : List Char → Option Nat
  | [] => none
  | c :: cs =>
    match konamiAt (c :: cs) with
    | some v => some v
    | none => searchKonami cs

/-- Embedding of `get_konami_id`: extract the number in the first
occurrence of the pattern `sn` + four digits, if any. -/
def get_konami_id (path : String) : Option Nat :=
  searchKonami path.data

/-- Embedding of the dynamic attribute container `CharacterAssets`:
identity, optionally assigned series name, and one optional bundle
reference per member of the closed asset-type enumeration (the
`_ENUM_TO_ATTR` table covers every member). A missing Python attribute
is `none`. -/
structure CharacterAssets where
  konami_id : Nat
  series : Option String
  assets : CharaAssetType → Option String

/-- Embedding of `CharacterAssets.set_asset_by_enum`. -/
def setAssetByEnum (c : CharacterAssets) (aty : CharaAssetType) (value : String) :
    CharacterAssets :=
  { c with assets := fun a => if a = aty then some value else c.assets a }

/-! ## services/game_service.py -/

/-- Linear scan for an existing character with the given identity, as in
the loops of `GameService._parse_character_asset` and
`DataService._merge_characters`. -/
def findChar (chars : List CharacterAssets) (k : Nat) : Option CharacterAssets :=
  chars.find? (fun c => c.konami_id == k)

/-- In-place mutation of the first list element carrying the given
identity, modelling the Python pattern of looking an object up in a list
and mutating it. -/
def updateFirst (chars : List CharacterAssets) (k : Nat)
    (f : CharacterAssets → CharacterAssets) : List CharacterAssets :=
  match chars with
  | [] => []
  | c :: rest =>
    if c.konami_id = k then f c :: rest else c :: updateFirst rest k f

/-- Fresh `CharacterAssets()` with `konami_id` and the series loop of
`_parse_character_asset` applied: the attribute stays unset when no
series matches. -/
def newCharacter (konamiId : Nat) : CharacterAssets :=
  { konami_id := konamiId
    series := (classifySeries konamiId).map CharaSeries.pyName
    assets := fun _ => none }

/-- Noise-marker test of `_parse_character_asset`:
`any(ignore in key for ignore in ("test", "temp", "dummy", "othername"))`. -/
def noiseMarker (key : String) : Bool :=
  ["test", "temp", "dummy", "othername"].any (fun ig => strContainsSub key ig)

/-- Embedding of `GameService._parse_character_asset` acting on the
character list of the data wrapper; the `raise ValueError` exit is
modelled as `Except.error` with the message of the source. -/
def parse_character_asset (chars : List CharacterAssets) (bundle key : String) :
    Except String (List CharacterAssets) :=
  match match_asset_by_string key with
  | none => .ok chars
  | some aty =>
    match get_konami_id key with
    | none =>
      if noiseMarker key then .ok chars
      else .error ("Could not get konami_id for key " ++ key)
    | some konamiId =>
      match findChar chars konamiId with
      | some _ => .ok (updateFirst chars konamiId (fun c => setAssetByEnum c aty bundle))
      | none => .ok (chars ++ [setAssetByEnum (newCharacter konamiId) aty bundle])

/-! ## services/data_service.py -/

/-- Embedding of `DataService._merge_character_assets`: an asset slot of
the incoming record is copied only when the accumulator slot is unset,
and likewise for the series attribute. -/
def mergeCharacterAssets (existing newChar : CharacterAssets) : CharacterAssets :=
  { konami_id := existing.konami_id
    series :=
      match newChar.series, existing.series with
      | some s, none => some s
      | _, _ => existing.series
    assets := fun a =>
      match newChar.assets a, existing.assets a with
      | some v, none => some v
      | _, _ => existing.assets a }

/-- One iteration of the `DataService._merge_characters` loop: merge one
incoming record into the accumulator list. -/
def mergeOneChar (main : List CharacterAssets) (nc : CharacterAssets) :
    List CharacterAssets :=
  match findChar main nc.konami_id with
  | some _ => updateFirst main nc.konami_id (fun c => mergeCharacterAssets c nc)
  | none => main ++ [nc]

/-- Embedding of `DataService._merge_characters`. -/
def mergeCharacters (main incoming : List CharacterAssets) : List CharacterAssets :=
  incoming.foldl mergeOneChar main

/-- Record looked up in the card metadata store (`CardModel`); only the
display name is consumed by the reconciliation pass. -/
structure YgoCard where
  name : Option String

/-- Slots of one entry of `ids["card"]` as read back from `ids.json`:
each of the five role keys written by `GameService._parse_card` may be
present or absent. -/
structure CardEntry where
  small : Option String
  medium : Option String
  large : Option String
  mask : Option String
  nameSlot : Option String

/-- Output entry of the name reconciliation pass: the three size slots
and the original card identifier. -/
structure OutCard where
  small : Option String
  medium : Option String
  large : Option String
  id : String

/-- While-loop of `DataService.get_card_data` that retries the candidate
name with a counted suffix appended until the name is absent from the
emitted keys. The loop always terminates because the candidate grows
strictly at each step; `fuel` bounds the recursion and is chosen large
enough by the caller. -/
def resolveName : Nat → String → Nat → List String → String
  | 0, name, _, _ => name
  | fuel + 1, name, altCount, keys =>
    if name ∈ keys then
      resolveName fuel (name ++ " (alt " ++ toString altCount ++ ")") (altCount + 1) keys
    else name

/-- Body of the `for card, data in ids["card"].items()` loop of
`DataService.get_card_data` for one candidate, threading the emitted
card collection: candidates missing a size slot, missing in the store,
or with a falsy display name are skipped, all others are emitted under a
collision-free name. -/
def processCard (store : String → Option YgoCard) (out : List (String × OutCard))
    (c : String × CardEntry) : List (String × OutCard) :=
  let cardId := c.1
  let data := c.2
  if data.small.isSome && data.medium.isSome && data.large.isSome then
    match store cardId with
    | none => out
    | some proCard =>
      match proCard.name with
      | none => out
      | some n =>
        if n = "" then out
        else
          let keys := out.map Prod.fst
          let finalName := resolveName (keys.length + 1) n 1 keys
          out ++ [(finalName, ⟨data.small, data.medium, data.large, cardId⟩)]
  else out

/-- Name reconciliation pass of `DataService.get_card_data`: fold over
the source card mapping in insertion order, starting from the empty
`out_wrapper["card"]` dictionary. -/
def getCardData (store : String → Option YgoCard)
    (cards : List (String × CardEntry)) : List (String × OutCard) :=
  cards.foldl (processCard store) []

/-! ## Derived observations used by the invariants -/

/-- Identities of the records of a character list, in list order. -/
def idsOf (l : List CharacterAssets) : List Nat := l.map (fun c => c.konami_id)

/-- Uniqueness invariant: at most one record per identity. -/
def uniqueIds (l : List CharacterAssets) : Prop := (idsOf l).Nodup

/-- Series of the record found for an identity, if any. -/
def seriesAt (l : List CharacterAssets) (k : Nat) : Option String :=
  match findChar l k with
  | some c => c.series
  | none => none

/-! ## Concrete sample data for witnesses -/

/-- Sample character record holding one asset slot. -/
def charSampleA : CharacterAssets :=
  { konami_id := 100
    series := some "GX"
    assets := fun a => if a = .ICON then some "bundleA" else none }

/-- Sample character record for the same identity with a conflicting
slot and one additional slot. -/
def charSampleB : CharacterAssets :=
  { konami_id := 100
    series := some "GX"
    assets := fun a =>
      if a = .ICON then some "bundleB"
      else if a = .SELECT then some "bundleC" else none }

/-- Store that maps every card identifier to the same display name. -/
def kuribohStore : String → Option YgoCard := fun _ => some ⟨some "Kuriboh"⟩

/-- Store with no records at all. -/
def emptyStore : String → Option YgoCard := fun _ => none

/-- Card entry with all three required size slots present. -/
def fullCardEntry : CardEntry :=
  ⟨some "bsmall", some "bmedium", some "blarge", none, none⟩

/-- Keys of a nested-dictionary association list, in insertion order. -/
def keysOfJ (d : List (String × JVal)) : List String := d.map Prod.fst

/-- Sample accumulator card dictionary: one texture with one slot. -/
def jSampleAcc : List (String × JVal) :=
  [("tex0001", JVal.obj [("small", JVal.leaf "bundleOld")])]

/-- Sample incoming card dictionary: the same texture and slot with a
conflicting bundle value. -/
def jSampleInc : List (String × JVal) :=
  [("tex0001", JVal.obj [("small", JVal.leaf "bundleNew")])]

/-! ## Helper lemmas -/

/-- Appending consecutive takes of a list. -/
theorem take_add_append (x : List α) (p q : Nat) :
    x.take p ++ (x.drop p).take q = x.take (p + q) := by
  induction p generalizing x with
  | zero => simp
  | succ p ih =>
    cases x with
    | nil => simp
    | cons y ys =>
      simp only [List.take_succ_cons, List.drop_succ_cons, List.cons_append,
        Nat.succ_add]
      rw [ih]

/-- Two consecutive Python slices concatenate to one slice. -/
theorem pySlice_append (l : List α) {a b c : Nat} (hab : a ≤ b) (hbc : b ≤ c) :
    pySlice l a b ++ pySlice l b c = pySlice l a c := by
  unfold pySlice
  have hdrop : l.drop b = (l.drop a).drop (b - a) := by
    rw [List.drop_drop]
    congr 1
    omega
  rw [hdrop, take_add_append]
  congr 1
  omega

/-- Length of a Python slice within bounds. -/
theorem pySlice_length (l : List α) {a b : Nat} (hab : a ≤ b) (hb : b ≤ l.length) :
    (pySlice l a b).length = b - a := by
  unfold pySlice
  simp only [List.length_take, List.length_drop]
  omega

/-- Concatenating slices along a monotone sequence of cut points yields
one slice from the first to the last cut point. -/
theorem flatten_pySlices (l : List α) (b : Nat → Nat) (hmono : ∀ i, b i ≤ b (i + 1)) :
    ∀ N, ((List.range N).map fun i => pySlice l (b i) (b (i + 1))).flatten
      = pySlice l (b 0) (b N) := by
  intro N
  induction N with
  | zero => simp [pySlice]
  | succ N ih =>
    rw [List.range_succ, List.map_append, List.flatten_append]
    simp only [List.map_cons, List.map_nil, List.flatten_cons, List.flatten_nil,
      List.append_nil]
    rw [ih, pySlice_append l (monotone_nat_of_le_succ hmono (Nat.zero_le N)) (hmono N)]

/-- The chunk boundaries used by `chunkify`. -/
def chunkBound (k m i : Nat) : Nat := i * k + min i m

/-- Monotonicity of the chunk boundaries. -/
theorem chunkBound_mono (k m : Nat) : ∀ i, chunkBound k m i ≤ chunkBound k m (i + 1) := by
  intro i
  unfold chunkBound
  have : i * k ≤ (i + 1) * k := Nat.mul_le_mul_right k (Nat.le_succ i)
  omega

/-- Difference of consecutive chunk boundaries: the first `m` chunks are
one element longer. -/
theorem chunkBound_diff (k m i : Nat) :
    chunkBound k m (i + 1) - chunkBound k m i = if i < m then k + 1 else k := by
  unfold chunkBound
  rw [show (i + 1) * k = i * k + k from by ring]
  split <;> omega

/-- Each chunk of `chunkify` is the slice between consecutive boundaries. -/
theorem chunkify_eq (l : List α) {n : Nat} (h : 0 < n) :
    chunkify l n = some ((List.range n).map fun i =>
      pySlice l (chunkBound (l.length / n) (l.length % n) i)
        (chunkBound (l.length / n) (l.length % n) (i + 1))) := by
  unfold chunkify chunkBound
  simp [Nat.pos_iff_ne_zero.mp h]

/-! ## C6 and C10: chunkify -/

/-- C6: for every list and every positive worker count `n`, `chunkify`
produces exactly `n` chunks, the first `len mod n` chunks have
`len div n + 1` elements and the remaining chunks have `len div n`
elements (so sizes differ pairwise by at most one), and the chunks
concatenate in order to the original list.  Worker count `0` is outside
the domain of the function (division by zero, see C10). -/
theorem claim_C6 (l : List α) (n : Nat) (h : 0 < n) :
    ∃ cs, chunkify l n = some cs ∧
      cs.length = n ∧
      (∀ i, i < n → (cs.getD i []).length =
        if i < l.length % n then l.length / n + 1 else l.length / n) ∧
      (∀ i j, i < n → j < n →
        (cs.getD i []).length ≤ (cs.getD j []).length + 1) ∧
      cs.flatten = l := by
  set k := l.length / n with hk
  set m := l.length % n with hm
  have hkm : n * k + m = l.length := Nat.div_add_mod l.length n
  have hmn : m < n := Nat.mod_lt _ h
  have hbound_le : ∀ i, i ≤ n → chunkBound k m i ≤ l.length := by
    intro i hi
    unfold chunkBound
    have : i * k ≤ n * k := Nat.mul_le_mul_right k hi
    omega
  refine ⟨_, chunkify_eq l h, ?_, ?_, ?_, ?_⟩
  · simp
  · intro i hi
    have hget : (((List.range n).map fun i =>
        pySlice l (chunkBound k m i) (chunkBound k m (i + 1))).getD i []) =
        pySlice l (chunkBound k m i) (chunkBound k m (i + 1)):= by
      simp [List.getElem?_map, List.getElem?_range hi]
    rw [hget, pySlice_length l (chunkBound_mono k m i) (hbound_le (i + 1) hi),
      chunkBound_diff]
  · intro i j hi hj
    have hgen : ∀ i, i < n → (((List.range n).map fun i =>
        pySlice l (chunkBound k m i) (chunkBound k m (i + 1))).getD i []).length =
        if i < m then k + 1 else k := by
      intro i hi
      have hget : (((List.range n).map fun i =>
          pySlice l (chunkBound k m i) (chunkBound k m (i + 1))).getD i []) =
          pySlice l (chunkBound k m i) (chunkBound k m (i + 1)) := by
        simp [List.getElem?_map, List.getElem?_range hi]
      rw [hget, pySlice_length l (chunkBound_mono k m i) (hbound_le (i + 1) hi),
        chunkBound_diff]
    rw [hgen i hi, hgen j hj]
    split <;> split <;> omega
  · rw [flatten_pySlices l _ (chunkBound_mono k m) n]
    have h0 : chunkBound k m 0 = 0 := by simp [chunkBound]
    have hn : chunkBound k m n = l.length := by
      unfold chunkBound
      omega
    rw [h0, hn]
    unfold pySlice
    simp

/-- Witness for C6 at a concrete input. -/
theorem claim_C6_witness :
    0 < 3 ∧
    ∃ cs, chunkify [10, 20, 30, 40, 50, 60, 70] 3 = some cs ∧
      cs.length = 3 ∧
      (∀ i, i < 3 → (cs.getD i []).length =
        if i < [10, 20, 30, 40, 50, 60, 70].length % 3
        then [10, 20, 30, 40, 50, 60, 70].length / 3 + 1
        else [10, 20, 30, 40, 50, 60, 70].length / 3) ∧
      (∀ i j, i < 3 → j < 3 →
        (cs.getD i []).length ≤ (cs.getD j []).length + 1) ∧
      cs.flatten = [10, 20, 30, 40, 50, 60, 70] :=
  ⟨by decide, claim_C6 [10, 20, 30, 40, 50, 60, 70] 3 (by decide)⟩

/-- C10: `chunkify` is undefined for worker count `0` — the `divmod`
raises `ZeroDivisionError`, modelled as `none` — and for a worker count
larger than the list length it returns `n` chunks whose trailing
`n - len` chunks are all empty. -/
theorem claim_C10 (l : List α) (n : Nat) :
    chunkify l 0 = none ∧
    (l.length < n →
      ∃ cs, chunkify l n = some cs ∧ cs.length = n ∧
        ∀ i, l.length ≤ i → i < n → cs.getD i [] = []) := by
  constructor
  · simp [chunkify]
  · intro hlen
    have h : 0 < n := Nat.lt_of_le_of_lt (Nat.zero_le _) hlen
    refine ⟨_, chunkify_eq l h, by simp, ?_⟩
    intro i hi hin
    have hk : l.length / n = 0 := Nat.div_eq_of_lt hlen
    have hm : l.length % n = l.length := Nat.mod_eq_of_lt hlen
    have hget : (((List.range n).map fun i =>
        pySlice l (chunkBound (l.length / n) (l.length % n) i)
          (chunkBound (l.length / n) (l.length % n) (i + 1))).getD i []) =
        pySlice l (chunkBound (l.length / n) (l.length % n) i)
          (chunkBound (l.length / n) (l.length % n) (i + 1)) := by
      simp [List.getElem?_map, List.getElem?_range hin]
    rw [hget]
    unfold pySlice chunkBound
    rw [hk, hm]
    have h1 : min i l.length = l.length := by omega
    have h2 : min (i + 1) l.length = l.length := by omega
    simp [h1, h2]

/-- Witness for C10 at a concrete input. -/
theorem claim_C10_witness :
    chunkify ([1, 2] : List Nat) 0 = none ∧
    ([1, 2] : List Nat).length < 5 ∧
    (∃ cs, chunkify ([1, 2] : List Nat) 5 = some cs ∧ cs.length = 5 ∧
      ∀ i, ([1, 2] : List Nat).length ≤ i → i < 5 → cs.getD i [] = []) :=
  ⟨(claim_C10 [1, 2] 5).1, by decide, (claim_C10 [1, 2] 5).2 (by decide)⟩

/-! ## C3: series classification -/

/-- Closed form of the series lookup loop: the ten numbered series cover
the identities below 1000, `NON_PLAYABLE` covers the identities from
9000 upwards, and nothing covers the band in between. -/
theorem classifySeries_spec (id : Nat) :
    classifySeries id =
      if id < 100 then some .DM
      else if id < 200 then some .GX
      else if id < 300 then some .FDS
      else if id < 400 then some .DSOD
      else if id < 500 then some .ZEXAL
      else if id < 600 then some .ARC_V
      else if id < 700 then some .VRAINS
      else if id < 800 then some .SEVENS
      else if id < 900 then some .STANDARD
      else if id < 1000 then some .RUSH
      else if 9000 ≤ id then some .NON_PLAYABLE
      else none := by
  unfold classifySeries charaSeriesList
  by_cases h1 : id < 100
  · rw [List.find?_cons_of_pos _ (by simp [CharaSeries.check_series, CharaSeries.value]; omega),
      if_pos h1]
  rw [List.find?_cons_of_neg _ (by simp [CharaSeries.check_series, CharaSeries.value]; omega),
    if_neg h1]
  by_cases h2 : id < 200
  · rw [List.find?_cons_of_pos _ (by simp [CharaSeries.check_series, CharaSeries.value]; omega),
      if_pos h2]
  rw [List.find?_cons_of_neg _ (by simp [CharaSeries.check_series, CharaSeries.value]; omega),
    if_neg h2]
  by_cases h3 : id < 300
  · rw [List.find?_cons_of_pos _ (by simp [CharaSeries.check_series, CharaSeries.value]; omega),
      if_pos h3]
  rw [List.find?_cons_of_neg _ (by simp [CharaSeries.check_series, CharaSeries.value]; omega),
    if_neg h3]
  by_cases h4 : id < 400
  · rw [List.find?_cons_of_pos _ (by simp [CharaSeries.check_series, CharaSeries.value]; omega),
      if_pos h4]
  rw [List.find?_cons_of_neg _ (by simp [CharaSeries.check_series, CharaSeries.value]; omega),
    if_neg h4]
  by_cases h5 : id < 500
  · rw [List.find?_cons_of_pos _ (by simp [CharaSeries.check_series, CharaSeries.value]; omega),
      if_pos h5]
  rw [List.find?_cons_of_neg _ (by simp [CharaSeries.check_series, CharaSeries.value]; omega),
    if_neg h5]
  by_cases h6 : id < 600
  · rw [List.find?_cons_of_pos _ (by simp [CharaSeries.check_series, CharaSeries.value]; omega),
      if_pos h6]
  rw [List.find?_cons_of_neg _ (by simp [CharaSeries.check_series, CharaSeries.value]; omega),
    if_neg h6]
  by_cases h7 : id < 700
  · rw [List.find?_cons_of_pos _ (by simp [CharaSeries.check_series, CharaSeries.value]; omega),
      if_pos h7]
  rw [List.find?_cons_of_neg _ (by simp [CharaSeries.check_series, CharaSeries.value]; omega),
    if_neg h7]
  by_cases h8 : id < 800
  · rw [List.find?_cons_of_pos _ (by simp [CharaSeries.check_series, CharaSeries.value]; omega),
      if_pos h8]
  rw [List.find?_cons_of_neg _ (by simp [CharaSeries.check_series, CharaSeries.value]; omega),
    if_neg h8]
  by_cases h9 : id < 900
  · rw [List.find?_cons_of_pos _ (by simp [CharaSeries.check_series, CharaSeries.value]; omega),
      if_pos h9]
  rw [List.find?_cons_of_neg _ (by simp [CharaSeries.check_series, CharaSeries.value]; omega),
    if_neg h9]
  by_cases h10 : id < 1000
  · rw [List.find?_cons_of_pos _ (by simp [CharaSeries.check_series, CharaSeries.value]; omega),
      if_pos h10]
  rw [List.find?_cons_of_neg _ (by simp [CharaSeries.check_series, CharaSeries.value]; omega),
    if_neg h10]
  by_cases h11 : 9000 ≤ id
  · rw [List.find?_cons_of_pos _ (by simp [CharaSeries.check_series, CharaSeries.value]; omega),
      if_pos h11]
  rw [List.find?_cons_of_neg _ (by simp [CharaSeries.check_series, CharaSeries.value]; omega),
    if_neg h11]
  rfl

/-- Arithmetic characterisation of `check_series` for an arbitrary
series member. -/
theorem check_series_iff (s : CharaSeries) (id : Nat) :
    s.check_series id = true ↔
      (s.value ≤ id ∧ id < s.value + 100 ∧ s.value < 9000) ∨
      (9000 ≤ s.value ∧ s.value ≤ id) := by
  unfold CharaSeries.check_series
  split <;> simp only [decide_eq_true_eq] <;> omega

/-- C3 counterexample: identity 1000 is a value extractable by the
4-digit identity pattern, yet no series range matches it — the claimed
catch-all does not fire, so classification does not assign a series to
every 4-digit identity. -/
theorem claim_C3_counterexample :
    get_konami_id "sn1000chara001.png" = some 1000 ∧ classifySeries 1000 = none := by
  exact ⟨by rfl, by decide⟩

set_option maxHeartbeats 1000000 in
/-- C3 (amended): series classification scans the ordinal ranges in
ascending order and returns the first range containing the identity; the
final range matches exactly the identities at or above 9000 (it is not a
catch-all), so a series is assigned precisely when the identity is below
1000 or at least 9000, and identities in `[1000, 9000)` receive no
series.  Identity 450 falls in the `[400, 500)` series, boundary
identity 500 falls in the next range, and identity 9500 falls in the
final open-ended range. -/
theorem claim_C3 :
    (∀ id : Nat, (id < 1000 ∨ 9000 ≤ id) →
      ∃ s, classifySeries id = some s ∧ s.check_series id = true) ∧
    (∀ id : Nat, 1000 ≤ id → id < 9000 → classifySeries id = none) ∧
    classifySeries 450 = some .ZEXAL ∧
    classifySeries 500 = some .ARC_V ∧
    classifySeries 9500 = some .NON_PLAYABLE := by
  refine ⟨?_, ?_, by decide, by decide, by decide⟩
  · intro id hid
    rw [classifySeries_spec]
    repeat' split
    all_goals
      first
        | (exfalso; omega)
        | exact ⟨_, rfl, (check_series_iff _ _).mpr
            (by simp only [CharaSeries.value]; omega)⟩
  · intro id h1 h2
    rw [classifySeries_spec]
    repeat' split
    all_goals first | rfl | (exfalso; omega)

/-- Witness for C3 at concrete identities. -/
theorem claim_C3_witness :
    ((450 < 1000 ∨ 9000 ≤ 450) ∧
      ∃ s, classifySeries 450 = some s ∧ s.check_series 450 = true) ∧
    (1000 ≤ 4500 ∧ 4500 < 9000 ∧ classifySeries 4500 = none) :=
  ⟨⟨Or.inl (by decide), claim_C3.1 450 (Or.inl (by decide))⟩,
   ⟨by decide, by decide, claim_C3.2.1 4500 (by decide) (by decide)⟩⟩

/-! ## C2: character slot resolution -/

/-- C2 counterexample: the path `chara003_10.png` carries the two-digit
variant marker `Chara003_10`, but the resolver returns the one-digit
slot `DUEL_1` because `chara003_1` precedes `chara003_10` in declaration
order and is a substring of the path. -/
theorem claim_C2_counterexample :
    match_asset_by_string "chara003_10.png" = some CharaAssetType.DUEL_1 ∧
    CharaAssetType.DUEL_1 ≠ CharaAssetType.DUEL_10 :=
  ⟨by decide, by decide⟩

/-- C2 (amended): for every path string the resolver returns the first
entry of the asset-type table, in declaration order, whose lower-cased
marker is a substring of the path.  The table is NOT ordered
longest-marker-first: the one-digit numbered variants precede their
two-digit extensions, so a path carrying a two-digit variant such as
`Chara003_10` resolves to the one-digit slot `DUEL_1`. -/
theorem claim_C2 :
    (∀ s t, match_asset_by_string s = some t →
      strContainsSub s (lcString t.value) = true ∧
      ∃ pre post, charaAssetTypes = pre ++ t :: post ∧
        ∀ t2 ∈ pre, strContainsSub s (lcString t2.value) = false) ∧
    match_asset_by_string "chara003_10.png" = some CharaAssetType.DUEL_1 := by
  constructor
  · intro s t h
    unfold match_asset_by_string at h
    rw [List.find?_eq_some] at h
    obtain ⟨hp, as, bs, heq, hall⟩ := h
    exact ⟨hp, as, bs, heq, fun t2 ht2 => by simpa using hall t2 ht2⟩
  · decide

/-- Witness for C2 at the concrete collision path. -/
theorem claim_C2_witness :
    match_asset_by_string "chara003_10.png" = some CharaAssetType.DUEL_1 ∧
    (strContainsSub "chara003_10.png" (lcString CharaAssetType.DUEL_1.value) = true ∧
      ∃ pre post, charaAssetTypes = pre ++ CharaAssetType.DUEL_1 :: post ∧
        ∀ t2 ∈ pre, strContainsSub "chara003_10.png" (lcString t2.value) = false) :=
  ⟨claim_C2.2, claim_C2.1 "chara003_10.png" CharaAssetType.DUEL_1 claim_C2.2⟩

/-! ## C7: failure policy for unidentifiable character assets -/

/-- C7 counterexample: the path `chara999.png` passes the filename gate,
yields no identity, and carries no noise marker, yet the parse routine
returns normally (silent skip) instead of raising — because no
asset-type marker matches the path, the routine returns before the
identity is ever examined. -/
theorem claim_C7_counterexample :
    is_character_asset "chara999.png" = true ∧
    get_konami_id "chara999.png" = none ∧
    noiseMarker "chara999.png" = false ∧
    parse_character_asset [] "bundleX" "chara999.png" = .ok [] :=
  ⟨by decide, by decide, by decide, by rfl⟩

/-- C7 (amended): for a path that passes the character-asset filename
gate, the parse routine first resolves the asset-type marker; when no
marker matches, the path is silently skipped regardless of identity or
noise markers.  Only when a marker matches and no identity can be
extracted does the noise-marker set decide between a silent skip and a
fatal error. -/
theorem claim_C7 (key bundle : String) (chars : List CharacterAssets)
    (hgate : is_character_asset key = true) :
    (match_asset_by_string key = none →
      parse_character_asset chars bundle key = .ok chars) ∧
    (match_asset_by_string key ≠ none → get_konami_id key = none →
      noiseMarker key = false →
      parse_character_asset chars bundle key =
        .error ("Could not get konami_id for key " ++ key)) ∧
    (match_asset_by_string key ≠ none → get_konami_id key = none →
      noiseMarker key = true →
      parse_character_asset chars bundle key = .ok chars) := by
  refine ⟨?_, ?_, ?_⟩
  · intro hm
    simp [parse_character_asset, hm]
  · intro hm hk hn
    obtain ⟨aty, ha⟩ := Option.ne_none_iff_exists'.mp hm
    simp [parse_character_asset, ha, hk, hn]
  · intro hm hk hn
    obtain ⟨aty, ha⟩ := Option.ne_none_iff_exists'.mp hm
    simp [parse_character_asset, ha, hk, hn]

/-- Witness for C7: `chara001.png` matches the `ICON` marker, has no
identity and no noise marker, and aborts. -/
theorem claim_C7_witness :
    is_character_asset "chara001.png" = true ∧
    match_asset_by_string "chara001.png" ≠ none ∧
    get_konami_id "chara001.png" = none ∧
    noiseMarker "chara001.png" = false ∧
    parse_character_asset [] "bundleX" "chara001.png" =
      .error ("Could not get konami_id for key " ++ "chara001.png") :=
  ⟨by decide, by decide, by decide, by decide,
   (claim_C7 "chara001.png" "bundleX" [] (by decide)).2.1
     (by decide) (by decide) (by decide)⟩

/-! ## Character-merge machinery lemmas -/

/-- Identity preservation of the asset merge. -/
theorem konami_id_mergeCharacterAssets (c nc : CharacterAssets) :
    (mergeCharacterAssets c nc).konami_id = c.konami_id := rfl

/-- Replacing an element with an identity-preserving function keeps the
identity list. -/
theorem idsOf_updateFirst (l : List CharacterAssets) (k : Nat)
    (f : CharacterAssets → CharacterAssets)
    (hf : ∀ c, (f c).konami_id = c.konami_id) :
    idsOf (updateFirst l k f) = idsOf l := by
  induction l with
  | nil => rfl
  | cons c rest ih =>
    unfold updateFirst
    split
    · simp [idsOf, hf]
    · simp only [idsOf, List.map_cons]
      rw [show (updateFirst rest k f).map (fun c => c.konami_id) = idsOf (updateFirst rest k f) from rfl, ih]
      rfl

/-- Lookup for a different identity is unaffected by `updateFirst`. -/
theorem findChar_updateFirst_ne (l : List CharacterAssets) (k : Nat)
    (f : CharacterAssets → CharacterAssets) (k2 : Nat)
    (hf : ∀ c, (f c).konami_id = c.konami_id) (hne : k2 ≠ k) :
    findChar (updateFirst l k f) k2 = findChar l k2 := by
  induction l with
  | nil => rfl
  | cons c rest ih =>
    unfold updateFirst
    by_cases h : c.konami_id = k
    · rw [if_pos h]
      unfold findChar at *
      have h1 : ((f c).konami_id == k2) = false := by
        rw [hf c, h]
        simp [Ne.symm hne]
      have h2 : (c.konami_id == k2) = false := by
        rw [h]
        simp [Ne.symm hne]
      simp only [List.find?, h1, h2]
    · rw [if_neg h]
      unfold findChar at *
      by_cases hc : c.konami_id = k2
      · simp only [List.find?, hc, beq_self_eq_true]
      · have h2 : (c.konami_id == k2) = false := by simp [hc]
        simp only [List.find?, h2]
        exact ih

/-- Lookup of the updated identity returns the transformed record. -/
theorem findChar_updateFirst_eq (l : List CharacterAssets) (k : Nat)
    (f : CharacterAssets → CharacterAssets) (c : CharacterAssets)
    (hf : ∀ c, (f c).konami_id = c.konami_id)
    (h : findChar l k = some c) :
    findChar (updateFirst l k f) k = some (f c) := by
  induction l with
  | nil => exact absurd h (by simp [findChar])
  | cons c0 rest ih =>
    unfold updateFirst
    by_cases h0 : c0.konami_id = k
    · rw [if_pos h0]
      unfold findChar at *
      have hc0 : (c0.konami_id == k) = true := by simp [h0]
      simp only [List.find?, hc0] at h
      have hfc0 : ((f c0).konami_id == k) = true := by simp [hf c0, h0]
      simp only [List.find?, hfc0]
      rw [Option.some.inj h]
    · rw [if_neg h0]
      unfold findChar at *
      have hc0 : (c0.konami_id == k) = false := by simp [h0]
      simp only [List.find?, hc0] at h ⊢
      exact ih h

/-- A successful lookup is unaffected by appending records. -/
theorem findChar_append_of_some (l l2 : List CharacterAssets) (k : Nat)
    (c : CharacterAssets) (h : findChar l k = some c) :
    findChar (l ++ l2) k = some c := by
  unfold findChar at *
  rw [List.find?_append, h]
  rfl

/-- Appending a record with a fresh identity preserves uniqueness. -/
theorem uniqueIds_append_new (l : List CharacterAssets) (a : CharacterAssets)
    (h : uniqueIds l) (hnone : findChar l a.konami_id = none) :
    uniqueIds (l ++ [a]) := by
  unfold uniqueIds idsOf at *
  rw [List.map_append]
  refine h.append (by simp) ?_
  intro x hx hxa
  simp only [List.map_cons, List.map_nil, List.mem_singleton] at hxa
  subst hxa
  unfold findChar at hnone
  rw [List.find?_eq_none] at hnone
  simp only [List.mem_map] at hx
  obtain ⟨c, hc, hck⟩ := hx
  exact absurd (by simp [hck]) (hnone c hc)

/-- The series of a record survives the asset merge. -/
theorem series_mergeCharacterAssets (c nc : CharacterAssets) (s : String)
    (h : c.series = some s) : (mergeCharacterAssets c nc).series = some s := by
  unfold mergeCharacterAssets
  simp only
  rw [h]
  cases nc.series <;> rfl

/-- A recorded series survives `updateFirst` with any function that
preserves identities and assigned series. -/
theorem seriesAt_updateFirst (l : List CharacterAssets) (k0 : Nat)
    (f : CharacterAssets → CharacterAssets)
    (hf : ∀ c, (f c).konami_id = c.konami_id)
    (hser : ∀ c s, c.series = some s → (f c).series = some s)
    (k : Nat) (s : String) (h : seriesAt l k = some s) :
    seriesAt (updateFirst l k0 f) k = some s := by
  unfold seriesAt at *
  cases hfk : findChar l k with
  | none => rw [hfk] at h; exact absurd h (by simp)
  | some c =>
    rw [hfk] at h
    by_cases hkk : k = k0
    · subst hkk
      rw [findChar_updateFirst_eq l k f c hf hfk]
      exact hser c s h
    · rw [findChar_updateFirst_ne l k0 f k hf hkk, hfk]
      exact h

/-- A recorded series survives appending records. -/
theorem seriesAt_append (l l2 : List CharacterAssets) (k : Nat) (s : String)
    (h : seriesAt l k = some s) : seriesAt (l ++ l2) k = some s := by
  unfold seriesAt at *
  cases hfk : findChar l k with
  | none => rw [hfk] at h; exact absurd h (by simp)
  | some c =>
    rw [hfk] at h
    rw [findChar_append_of_some l l2 k c hfk]
    exact h

/-- Merge-step equation when the identity is already known. -/
theorem mergeOneChar_eq_found (main : List CharacterAssets) (nc c : CharacterAssets)
    (hf : findChar main nc.konami_id = some c) :
    mergeOneChar main nc =
      updateFirst main nc.konami_id (fun x => mergeCharacterAssets x nc) := by
  unfold mergeOneChar
  rw [hf]

/-- Merge-step equation when the identity is new. -/
theorem mergeOneChar_eq_new (main : List CharacterAssets) (nc : CharacterAssets)
    (hf : findChar main nc.konami_id = none) :
    mergeOneChar main nc = main ++ [nc] := by
  unfold mergeOneChar
  rw [hf]

/-- One merge step preserves identity uniqueness. -/
theorem mergeOneChar_uniqueIds (main : List CharacterAssets)
    (nc : CharacterAssets) (h : uniqueIds main) :
    uniqueIds (mergeOneChar main nc) := by
  cases hf : findChar main nc.konami_id with
  | some c =>
    rw [mergeOneChar_eq_found main nc c hf]
    unfold uniqueIds
    rw [idsOf_updateFirst main nc.konami_id (fun x => mergeCharacterAssets x nc)
      (fun c => rfl)]
    exact h
  | none =>
    rw [mergeOneChar_eq_new main nc hf]
    exact uniqueIds_append_new main nc h hf

/-- One merge step preserves every assigned series. -/
theorem mergeOneChar_seriesAt (main : List CharacterAssets)
    (nc : CharacterAssets) (k : Nat) (s : String)
    (h : seriesAt main k = some s) :
    seriesAt (mergeOneChar main nc) k = some s := by
  cases hf : findChar main nc.konami_id with
  | some c =>
    rw [mergeOneChar_eq_found main nc c hf]
    exact seriesAt_updateFirst main nc.konami_id (fun x => mergeCharacterAssets x nc)
      (fun c => rfl) (fun c s hs => series_mergeCharacterAssets c nc s hs) k s h
  | none =>
    rw [mergeOneChar_eq_new main nc hf]
    exact seriesAt_append main [nc] k s h

/-! ## C8: uniqueness and series stability -/

/-- C8: the scan step and the merge pass both preserve the invariants
that the character list holds at most one record per identity (an
already-known identity is merged into the existing record, never
appended) and that a series, once assigned, is never changed for that
identity. -/
theorem claim_C8 :
    (∀ (chars : List CharacterAssets) (bundle key : String) chars2,
      uniqueIds chars →
      parse_character_asset chars bundle key = .ok chars2 →
      uniqueIds chars2 ∧
        ∀ k s, seriesAt chars k = some s → seriesAt chars2 k = some s) ∧
    (∀ (main incoming : List CharacterAssets), uniqueIds main →
      uniqueIds (mergeCharacters main incoming) ∧
        ∀ k s, seriesAt main k = some s →
          seriesAt (mergeCharacters main incoming) k = some s) := by
  constructor
  · intro chars bundle key chars2 h hp
    cases hm : match_asset_by_string key with
    | none =>
      simp only [parse_character_asset, hm, Except.ok.injEq] at hp
      subst hp
      exact ⟨h, fun k s hs => hs⟩
    | some aty =>
      cases hk : get_konami_id key with
      | none =>
        cases hn : noiseMarker key with
        | false =>
          simp only [parse_character_asset, hm, hk, hn, Bool.false_eq_true,
            if_false, reduceCtorEq] at hp
        | true =>
          simp only [parse_character_asset, hm, hk, hn, if_true,
            Except.ok.injEq] at hp
          subst hp
          exact ⟨h, fun k s hs => hs⟩
      | some kid =>
        cases hfc : findChar chars kid with
        | some c =>
          simp only [parse_character_asset, hm, hk, hfc, Except.ok.injEq] at hp
          subst hp
          constructor
          · unfold uniqueIds
            rw [idsOf_updateFirst chars kid (fun x => setAssetByEnum x aty bundle)
              (fun c => rfl)]
            exact h
          · intro k s hs
            exact seriesAt_updateFirst chars kid (fun x => setAssetByEnum x aty bundle)
              (fun c => rfl) (fun c s hs => hs) k s hs
        | none =>
          simp only [parse_character_asset, hm, hk, hfc, Except.ok.injEq] at hp
          subst hp
          constructor
          · exact uniqueIds_append_new chars _ h (by
              rw [show (setAssetByEnum (newCharacter kid) aty bundle).konami_id = kid from rfl]
              exact hfc)
          · intro k s hs
            exact seriesAt_append chars _ k s hs
  · intro main incoming h
    induction incoming generalizing main with
    | nil => exact ⟨h, fun k s hs => hs⟩
    | cons nc rest ih =>
      have hstep := ih (mergeOneChar main nc) (mergeOneChar_uniqueIds main nc h)
      exact ⟨hstep.1, fun k s hs =>
        hstep.2 k s (mergeOneChar_seriesAt main nc k s hs)⟩

/-- Witness for C8: the scan step creates a record for identity 450 in
the empty list, and a merge of two single-record partials for identity
100 keeps one record and its series. -/
theorem claim_C8_witness :
    uniqueIds ([] : List CharacterAssets) ∧
    parse_character_asset [] "bundleY" "sn0450chara001.png" =
      .ok [setAssetByEnum (newCharacter 450) CharaAssetType.ICON "bundleY"] ∧
    (uniqueIds [setAssetByEnum (newCharacter 450) CharaAssetType.ICON "bundleY"] ∧
      ∀ k s, seriesAt [] k = some s →
        seriesAt [setAssetByEnum (newCharacter 450) CharaAssetType.ICON "bundleY"] k = some s) ∧
    uniqueIds [charSampleA] ∧
    (uniqueIds (mergeCharacters [charSampleA] [charSampleB]) ∧
      ∀ k s, seriesAt [charSampleA] k = some s →
        seriesAt (mergeCharacters [charSampleA] [charSampleB]) k = some s) :=
  ⟨by simp [uniqueIds, idsOf],
   by rfl,
   claim_C8.1 [] "bundleY" "sn0450chara001.png" _ (by simp [uniqueIds, idsOf]) (by rfl),
   by simp [uniqueIds, idsOf],
   claim_C8.2 [charSampleA] [charSampleB] (by simp [uniqueIds, idsOf])⟩

/-! ## C4: character slot merge polarity -/

/-- C4: merging a partial with a record for an identity already present
in the accumulator keeps every slot already set in the accumulator
(first-seen-wins) and adds the slots set only in the incoming record. -/
theorem claim_C4 (c1 c2 : CharacterAssets) (h : c1.konami_id = c2.konami_id) :
    ∃ c, mergeCharacters [c1] [c2] = [c] ∧
      (∀ a v1, c1.assets a = some v1 → c.assets a = some v1) ∧
      (∀ a v2, c1.assets a = none → c2.assets a = some v2 → c.assets a = some v2) := by
  refine ⟨mergeCharacterAssets c1 c2, ?_, ?_, ?_⟩
  · show mergeOneChar [c1] c2 = _
    unfold mergeOneChar findChar
    have hc : (c1.konami_id == c2.konami_id) = true := by simp [h]
    simp only [List.find?, hc]
    unfold updateFirst
    rw [if_pos h]
  · intro a v1 hv
    unfold mergeCharacterAssets
    simp only
    rw [hv]
    cases c2.assets a <;> rfl
  · intro a v2 h1 h2
    unfold mergeCharacterAssets
    simp only
    rw [h1, h2]

/-- Witness for C4: two sample records for identity 100 with a
conflicting `ICON` slot and a `SELECT` slot only in the later record. -/
theorem claim_C4_witness :
    charSampleA.konami_id = charSampleB.konami_id ∧
    ∃ c, mergeCharacters [charSampleA] [charSampleB] = [c] ∧
      (∀ a v1, charSampleA.assets a = some v1 → c.assets a = some v1) ∧
      (∀ a v2, charSampleA.assets a = none → charSampleB.assets a = some v2 →
        c.assets a = some v2) :=
  ⟨rfl, claim_C4 charSampleA charSampleB rfl⟩

/-! ## Nested-dictionary merge lemmas -/

/-- Unfolding of `mergeND` on the empty incoming dictionary. -/
theorem mergeND_nil (d1 : List (String × JVal)) : mergeND d1 [] = d1 := by
  rw [mergeND.eq_def]

/-- Unfolding of `mergeND` on a nonempty incoming dictionary in terms of
the loop body `mergeStep`. -/
theorem mergeND_cons (d1 : List (String × JVal)) (k : String) (v : JVal)
    (rest : List (String × JVal)) :
    mergeND d1 ((k, v) :: rest) = mergeND (mergeStep d1 k v) rest := by
  rw [mergeND.eq_def]

/-- Loop-body equation for a fresh key. -/
theorem mergeStep_none (d1 : List (String × JVal)) (k : String) (v : JVal)
    (h : lookupJ d1 k = none) : mergeStep d1 k v = d1 ++ [(k, v)] := by
  unfold mergeStep
  rw [h]

/-- Loop-body equation when both values are dictionaries. -/
theorem mergeStep_obj_obj (d1 : List (String × JVal)) (k : String)
    (e1 e2 : List (String × JVal)) (h : lookupJ d1 k = some (.obj e1)) :
    mergeStep d1 k (.obj e2) = setKeyJ d1 k (.obj (mergeND e1 e2)) := by
  unfold mergeStep
  rw [h]

/-- Loop-body equation for an incoming leaf over any existing value. -/
theorem mergeStep_leaf (d1 : List (String × JVal)) (k : String) (w : JVal)
    (s : String) (h : lookupJ d1 k = some w) :
    mergeStep d1 k (.leaf s) = setKeyJ d1 k (.leaf s) := by
  unfold mergeStep
  rw [h]
  cases w <;> rfl

/-- Loop-body equation for an incoming dictionary over an existing leaf. -/
theorem mergeStep_obj_over_leaf (d1 : List (String × JVal)) (k : String)
    (s : String) (e2 : List (String × JVal)) (h : lookupJ d1 k = some (.leaf s)) :
    mergeStep d1 k (.obj e2) = setKeyJ d1 k (.obj e2) := by
  unfold mergeStep
  rw [h]

/-- Lookup of a different key is unaffected by `setKeyJ`. -/
theorem lookupJ_setKeyJ_ne (d : List (String × JVal)) (k : String) (v : JVal)
    (t : String) (hne : k ≠ t) : lookupJ (setKeyJ d k v) t = lookupJ d t := by
  induction d with
  | nil => rfl
  | cons e rest ih =>
    obtain ⟨k1, v1⟩ := e
    unfold setKeyJ
    by_cases h1 : k1 = k
    · rw [if_pos h1]
      unfold lookupJ
      rw [h1]
      rw [if_neg hne, if_neg hne]
    · rw [if_neg h1]
      unfold lookupJ
      by_cases h2 : k1 = t
      · rw [if_pos h2, if_pos h2]
      · rw [if_neg h2, if_neg h2]
        exact ih

/-- Lookup of an existing key after `setKeyJ` returns the new value. -/
theorem lookupJ_setKeyJ_eq (d : List (String × JVal)) (k : String) (v w : JVal)
    (h : lookupJ d k = some w) : lookupJ (setKeyJ d k v) k = some v := by
  induction d with
  | nil => exact absurd h (by simp [lookupJ])
  | cons e rest ih =>
    obtain ⟨k1, v1⟩ := e
    unfold setKeyJ
    by_cases h1 : k1 = k
    · rw [if_pos h1]
      unfold lookupJ
      rw [if_pos h1]
    · rw [if_neg h1]
      unfold lookupJ
      rw [if_neg h1]
      unfold lookupJ at h
      rw [if_neg h1] at h
      exact ih h

/-- Appending a single entry with a different key keeps a lookup. -/
theorem lookupJ_append_single_ne (d : List (String × JVal)) (k : String)
    (v : JVal) (t : String) (hne : k ≠ t) :
    lookupJ (d ++ [(k, v)]) t = lookupJ d t := by
  induction d with
  | nil =>
    show lookupJ [(k, v)] t = none
    unfold lookupJ
    rw [if_neg hne]
    rfl
  | cons e rest ih =>
    obtain ⟨k1, v1⟩ := e
    show lookupJ ((k1, v1) :: (rest ++ [(k, v)])) t = _
    unfold lookupJ
    by_cases h2 : k1 = t
    · rw [if_pos h2, if_pos h2]
    · rw [if_neg h2, if_neg h2]
      exact ih

/-- Lookup in an appended dictionary when the key is absent up front. -/
theorem lookupJ_append_of_none (d d2 : List (String × JVal)) (t : String)
    (h : lookupJ d t = none) : lookupJ (d ++ d2) t = lookupJ d2 t := by
  induction d with
  | nil => rfl
  | cons e rest ih =>
    obtain ⟨k1, v1⟩ := e
    rw [List.cons_append]
    have h2 : k1 ≠ t := by
      intro he
      unfold lookupJ at h
      rw [if_pos he] at h
      exact absurd h (by simp)
    have h' : lookupJ rest t = none := by
      unfold lookupJ at h
      rw [if_neg h2] at h
      exact h
    show (if k1 = t then some v1 else lookupJ (rest ++ d2) t) = lookupJ d2 t
    rw [if_neg h2]
    exact ih h' 

/-- One loop-body step does not change lookups of other keys. -/
theorem lookupJ_mergeStep_ne (d1 : List (String × JVal)) (k : String)
    (v : JVal) (t : String) (hne : k ≠ t) :
    lookupJ (mergeStep d1 k v) t = lookupJ d1 t := by
  cases hl : lookupJ d1 k with
  | none =>
    rw [mergeStep_none d1 k v hl]
    exact lookupJ_append_single_ne d1 k v t hne
  | some w =>
    cases v with
    | leaf s =>
      rw [mergeStep_leaf d1 k w s hl]
      exact lookupJ_setKeyJ_ne d1 k _ t hne
    | obj e2 =>
      cases w with
      | leaf s0 =>
        rw [mergeStep_obj_over_leaf d1 k s0 e2 hl]
        exact lookupJ_setKeyJ_ne d1 k _ t hne
      | obj e1 =>
        rw [mergeStep_obj_obj d1 k e1 e2 hl]
        exact lookupJ_setKeyJ_ne d1 k _ t hne

/-- Merging a dictionary that never mentions a key does not change the
lookup of that key. -/
theorem lookupJ_mergeND_of_not_mem (d2 : List (String × JVal)) (t : String)
    (h : t ∉ keysOfJ d2) :
    ∀ d1, lookupJ (mergeND d1 d2) t = lookupJ d1 t := by
  induction d2 with
  | nil => intro d1; rw [mergeND_nil]
  | cons e rest ih =>
    intro d1
    obtain ⟨k, v⟩ := e
    simp only [keysOfJ, List.map_cons, List.mem_cons, not_or] at h
    obtain ⟨hkt, hrest⟩ := h
    rw [mergeND_cons]
    rw [ih (by simpa [keysOfJ] using hrest) (mergeStep d1 k v)]
    exact lookupJ_mergeStep_ne d1 k v t (fun he => hkt (by rw [he]))

/-- When both dictionaries hold nested dictionaries under the same key,
the merge result holds their recursive merge under that key. -/
theorem lookupJ_mergeND_obj (d2 : List (String × JVal)) (t : String)
    (e2 : List (String × JVal)) (hnd : (keysOfJ d2).Nodup)
    (h2 : lookupJ d2 t = some (.obj e2)) :
    ∀ d1 e1, lookupJ d1 t = some (.obj e1) →
      lookupJ (mergeND d1 d2) t = some (.obj (mergeND e1 e2)) := by
  induction d2 with
  | nil => exact absurd h2 (by simp [lookupJ])
  | cons e rest ih =>
    intro d1 e1 h1
    obtain ⟨k, v⟩ := e
    simp only [keysOfJ, List.map_cons, List.nodup_cons] at hnd
    obtain ⟨hknotin, hndrest⟩ := hnd
    rw [mergeND_cons]
    by_cases hkt : k = t
    · subst hkt
      have hv : v = .obj e2 := by
        unfold lookupJ at h2
        rw [if_pos rfl] at h2
        exact Option.some.inj h2
      subst hv
      rw [lookupJ_mergeND_of_not_mem rest k (by simpa [keysOfJ] using hknotin)]
      rw [mergeStep_obj_obj d1 k e1 e2 h1]
      exact lookupJ_setKeyJ_eq d1 k _ _ h1
    · have h2' : lookupJ rest t = some (.obj e2) := by
        unfold lookupJ at h2
        rw [if_neg hkt] at h2
        exact h2
      have h1' : lookupJ (mergeStep d1 k v) t = some (.obj e1) := by
        rw [lookupJ_mergeStep_ne d1 k v t hkt]
        exact h1
      exact ih hndrest h2' (mergeStep d1 k v) e1 h1'

/-- A leaf present in the incoming dictionary wins in the merge result,
whatever the accumulator holds for that key. -/
theorem lookupJ_mergeND_leaf (e2 : List (String × JVal)) (s b : String)
    (hnd : (keysOfJ e2).Nodup) (h2 : lookupJ e2 s = some (.leaf b)) :
    ∀ e1, lookupJ (mergeND e1 e2) s = some (.leaf b) := by
  induction e2 with
  | nil => exact absurd h2 (by simp [lookupJ])
  | cons e rest ih =>
    intro e1
    obtain ⟨k, v⟩ := e
    simp only [keysOfJ, List.map_cons, List.nodup_cons] at hnd
    obtain ⟨hknotin, hndrest⟩ := hnd
    rw [mergeND_cons]
    by_cases hks : k = s
    · subst hks
      have hv : v = .leaf b := by
        unfold lookupJ at h2
        rw [if_pos rfl] at h2
        exact Option.some.inj h2
      subst hv
      rw [lookupJ_mergeND_of_not_mem rest k (by simpa [keysOfJ] using hknotin)]
      cases hl : lookupJ e1 k with
      | none =>
        rw [mergeStep_none e1 k _ hl]
        rw [lookupJ_append_of_none e1 _ k hl]
        unfold lookupJ
        rw [if_pos rfl]
      | some w =>
        rw [mergeStep_leaf e1 k w b hl]
        exact lookupJ_setKeyJ_eq e1 k _ w hl
    · have h2' : lookupJ rest s = some (.leaf b) := by
        unfold lookupJ at h2
        rw [if_neg hks] at h2
        exact h2
      exact ih hndrest h2' (mergeStep e1 k v)

/-! ## C5: image-category merge polarity -/

/-- C5: the image-category merge is a recursive structural merge in
which, for a leaf role-slot key present under the same texture in both
the accumulator and the incoming chunk, the incoming value replaces the
accumulator value (last-merged-wins). -/
theorem claim_C5 (d1 d2 : List (String × JVal)) (tex slot : String)
    (e1 e2 : List (String × JVal)) (b1 b2 : String)
    (hnd2 : (keysOfJ d2).Nodup) (hnde2 : (keysOfJ e2).Nodup)
    (h1 : lookupJ d1 tex = some (.obj e1)) (h2 : lookupJ d2 tex = some (.obj e2))
    (hs1 : lookupJ e1 slot = some (.leaf b1)) (hs2 : lookupJ e2 slot = some (.leaf b2)) :
    ∃ e, lookupJ (mergeND d1 d2) tex = some (.obj e) ∧
      lookupJ e slot = some (.leaf b2) :=
  ⟨mergeND e1 e2,
   lookupJ_mergeND_obj d2 tex e2 hnd2 h2 d1 e1 h1,
   lookupJ_mergeND_leaf e2 slot b2 hnde2 hs2 e1⟩

/-- Witness for C5: two one-texture dictionaries with a conflicting
`small` slot; the merged value is the incoming bundle. -/
theorem claim_C5_witness :
    (keysOfJ jSampleInc).Nodup ∧
    (keysOfJ [("small", JVal.leaf "bundleNew")]).Nodup ∧
    lookupJ jSampleAcc "tex0001" = some (.obj [("small", JVal.leaf "bundleOld")]) ∧
    lookupJ jSampleInc "tex0001" = some (.obj [("small", JVal.leaf "bundleNew")]) ∧
    lookupJ [("small", JVal.leaf "bundleOld")] "small" = some (.leaf "bundleOld") ∧
    lookupJ [("small", JVal.leaf "bundleNew")] "small" = some (.leaf "bundleNew") ∧
    ∃ e, lookupJ (mergeND jSampleAcc jSampleInc) "tex0001" = some (.obj e) ∧
      lookupJ e "small" = some (.leaf "bundleNew") :=
  ⟨by decide, by decide, by rfl, by rfl, by rfl, by rfl,
   claim_C5 jSampleAcc jSampleInc "tex0001" "small"
     [("small", JVal.leaf "bundleOld")] [("small", JVal.leaf "bundleNew")]
     "bundleOld" "bundleNew"
     (by decide) (by decide) (by rfl) (by rfl) (by rfl) (by rfl)⟩

/-! ## Name-reconciliation lemmas -/

/-- Strings of different lengths differ. -/
theorem ne_of_length_ne (s t : String) (h : s.length ≠ t.length) : s ≠ t :=
  fun he => h (by rw [he])

/-- The retry loop returns the candidate unchanged when it is free. -/
theorem resolveName_of_not_mem (fuel : Nat) (n : String) (altCount : Nat)
    (keys : List String) (h : n ∉ keys) :
    resolveName fuel n altCount keys = n := by
  cases fuel with
  | zero => rfl
  | succ f =>
    unfold resolveName
    rw [if_neg h]

/-- The retry loop appends one counted suffix to the current candidate
when it collides, and continues. -/
theorem resolveName_of_mem (fuel : Nat) (n : String) (altCount : Nat)
    (keys : List String) (h : n ∈ keys) :
    resolveName (fuel + 1) n altCount keys =
      resolveName fuel (n ++ " (alt " ++ toString altCount ++ ")") (altCount + 1) keys := by
  conv_lhs => rw [resolveName]
  rw [if_pos h]

/-- Loop-body equation of the reconciliation pass for a candidate that
is emitted: all three size slots present, a store record with a truthy
name. -/
theorem processCard_emit (store : String → Option YgoCard)
    (out : List (String × OutCard)) (i : String) (d : CardEntry) (n : String)
    (hc : (d.small.isSome && d.medium.isSome && d.large.isSome) = true)
    (hs : store i = some ⟨some n⟩) (hn : ¬n = "") :
    processCard store out (i, d) =
      out ++ [(resolveName ((out.map Prod.fst).length + 1) n 1 (out.map Prod.fst),
        ⟨d.small, d.medium, d.large, i⟩)] := by
  unfold processCard
  simp only [hc, hs, hn, if_true, if_false]

/-! ## C1: duplicate-name suffixing -/

/-- C1 counterexample: three candidates whose display name is `Kuriboh`
do not come out as `Kuriboh`, `Kuriboh (alt 1)`, `Kuriboh (alt 2)`; the
suffix is appended to the already-suffixed name, so the third candidate
is emitted as `Kuriboh (alt 1) (alt 2)`. -/
theorem claim_C1_counterexample :
    (getCardData kuribohStore
      [("1", fullCardEntry), ("2", fullCardEntry), ("3", fullCardEntry)]).map Prod.fst ≠
      ["Kuriboh", "Kuriboh (alt 1)", "Kuriboh (alt 2)"] := by
  decide

/-- C1 (amended): the reconciliation pass walks the source card mapping
in insertion order; on a collision the counted suffix is appended to the
current candidate name — which may itself already carry a suffix — and
the counter is incremented until the name is free.  For three candidates
with the same display name the emitted names are the name itself, the
name with ` (alt 1)`, and the name with ` (alt 1) (alt 2)`, in order. -/
theorem claim_C1 (store : String → Option YgoCard) (n : String)
    (i1 i2 i3 : String) (d1 d2 d3 : CardEntry)
    (hc1 : (d1.small.isSome && d1.medium.isSome && d1.large.isSome) = true)
    (hc2 : (d2.small.isSome && d2.medium.isSome && d2.large.isSome) = true)
    (hc3 : (d3.small.isSome && d3.medium.isSome && d3.large.isSome) = true)
    (hs1 : store i1 = some ⟨some n⟩) (hs2 : store i2 = some ⟨some n⟩)
    (hs3 : store i3 = some ⟨some n⟩) (hn : ¬n = "") :
    (getCardData store [(i1, d1), (i2, d2), (i3, d3)]).map Prod.fst =
      [n, n ++ " (alt 1)", n ++ " (alt 1) (alt 2)"] := by
  have la : (" (alt ").length = 6 := rfl
  have lp : (")").length = 1 := rfl
  have ht1 : (toString 1 : String) = "1" := rfl
  have ht2 : (toString 2 : String) = "2" := rfl
  have l1 : ("1").length = 1 := rfl
  have l2 : ("2").length = 1 := rfl
  unfold getCardData
  rw [List.foldl_cons, List.foldl_cons, List.foldl_cons, List.foldl_nil]
  rw [processCard_emit store [] i1 d1 n hc1 hs1 hn]
  rw [List.nil_append]
  rw [resolveName_of_not_mem _ n 1 _ (by simp)]
  rw [processCard_emit store _ i2 d2 n hc2 hs2 hn]
  simp only [List.map_cons, List.map_nil, List.length_cons, List.length_nil]
  rw [resolveName_of_mem 1 n 1 [n] (by simp), ht1]
  have hne1 : ¬(n ++ " (alt " ++ "1" ++ ")") ∈ [n] := by
    simp only [List.mem_singleton]
    apply ne_of_length_ne
    simp only [String.length_append, la, l1, lp]
    omega
  rw [resolveName_of_not_mem 1 _ 2 [n] hne1]
  rw [processCard_emit store _ i3 d3 n hc3 hs3 hn]
  simp only [List.map_append, List.map_cons, List.map_nil, List.length_append,
    List.length_cons, List.length_nil]
  rw [resolveName_of_mem _ n 1 _ (by simp), ht1]
  rw [resolveName_of_mem _ (n ++ " (alt " ++ "1" ++ ")") 2 _ (by simp), ht2]
  have g1 : n ++ " (alt " ++ "1" ++ ")" ++ " (alt " ++ "2" ++ ")" ≠ n := by
    apply ne_of_length_ne
    simp only [String.length_append, la, l1, l2, lp]
    omega
  have g2 : n ++ " (alt " ++ "1" ++ ")" ++ " (alt " ++ "2" ++ ")" ≠
      n ++ " (alt " ++ "1" ++ ")" := by
    apply ne_of_length_ne
    simp only [String.length_append, la, l1, l2, lp]
    omega
  have hne3 : (n ++ " (alt " ++ "1" ++ ")" ++ " (alt " ++ "2" ++ ")") ∉
      [n] ++ [n ++ " (alt " ++ "1" ++ ")"] := by
    simp [g1, g2]
  rw [resolveName_of_not_mem _ _ 3 _ hne3]
  simp only [List.cons_append, List.nil_append, List.map_cons, List.map_nil]
  have e1 : n ++ " (alt " ++ "1" ++ ")" = n ++ " (alt 1)" := by
    have : (" (alt " ++ "1" ++ ")" : String) = " (alt 1)" := rfl
    rw [String.append_assoc, String.append_assoc, ← String.append_assoc (" (alt "), this]
  have e2 : n ++ " (alt " ++ "1" ++ ")" ++ " (alt " ++ "2" ++ ")" =
      n ++ " (alt 1) (alt 2)" := by
    have : (" (alt " ++ "1" ++ ")" ++ " (alt " ++ "2" ++ ")" : String) =
        " (alt 1) (alt 2)" := rfl
    rw [show n ++ " (alt " ++ "1" ++ ")" ++ " (alt " ++ "2" ++ ")" =
      n ++ (" (alt " ++ "1" ++ ")" ++ " (alt " ++ "2" ++ ")") from by
        simp [String.append_assoc], this]
  rw [e2, e1]

/-- Witness for C1 at the concrete Kuriboh inputs. -/
theorem claim_C1_witness :
    (fullCardEntry.small.isSome && fullCardEntry.medium.isSome &&
      fullCardEntry.large.isSome) = true ∧
    kuribohStore "1" = some ⟨some "Kuriboh"⟩ ∧
    kuribohStore "2" = some ⟨some "Kuriboh"⟩ ∧
    kuribohStore "3" = some ⟨some "Kuriboh"⟩ ∧
    ¬(("Kuriboh" : String) = "") ∧
    (getCardData kuribohStore
      [("1", fullCardEntry), ("2", fullCardEntry), ("3", fullCardEntry)]).map Prod.fst =
      ["Kuriboh", "Kuriboh" ++ " (alt 1)", "Kuriboh" ++ " (alt 1) (alt 2)"] :=
  ⟨by decide, rfl, rfl, rfl, by decide,
   claim_C1 kuribohStore "Kuriboh" "1" "2" "3" fullCardEntry fullCardEntry fullCardEntry
     (by decide) (by decide) (by decide) rfl rfl rfl (by decide)⟩

/-! ## C9: candidates missing from the metadata store -/

/-- C9: a candidate with all three size slots but no record in the
metadata store is skipped without error: the pass over a list containing
it produces exactly the output of the pass over the list without it. -/
theorem claim_C9 (store : String → Option YgoCard)
    (pre post : List (String × CardEntry)) (cardId : String) (d : CardEntry)
    (hc : (d.small.isSome && d.medium.isSome && d.large.isSome) = true)
    (hs : store cardId = none) :
    getCardData store (pre ++ (cardId, d) :: post) = getCardData store (pre ++ post) := by
  unfold getCardData
  rw [List.foldl_append, List.foldl_append, List.foldl_cons]
  have hskip : processCard store (List.foldl (processCard store) [] pre) (cardId, d) =
      List.foldl (processCard store) [] pre := by
    unfold processCard
    simp only [hc, hs, if_true]
  rw [hskip]

/-- Witness for C9 at a concrete input. -/
theorem claim_C9_witness :
    (fullCardEntry.small.isSome && fullCardEntry.medium.isSome &&
      fullCardEntry.large.isSome) = true ∧
    emptyStore "9" = none ∧
    getCardData emptyStore ([] ++ ("9", fullCardEntry) :: []) =
      getCardData emptyStore ([] ++ []) :=
  ⟨by decide, rfl, claim_C9 emptyStore [] [] "9" fullCardEntry (by decide) rfl⟩

end Etl
